import Mathlib

/-!
Verification development for `scripts/incremental_build/cuj_catalog.py`.

The Python module builds a catalog of reversible filesystem-mutation
scenarios ("CUJ groups").  This file gives a shallow embedding of its data
model and recipes:

* filesystem paths are lists of components below the root (`PathC`);
* file contents are byte lists (`List Nat`), with an explicit UTF-8
  encoding for Python's text-mode writes;
* the directory tree is a pair of finite lists of file and directory
  paths (`Fs`);
* each recipe's construction-time control flow is embedded in the
  `Except String` monad (Python exceptions become `.error`);
* the steps of a group are data: a verb, a description of the mutation
  (`ApplyAction`), and a description of the verification (`VerifyAction`).

Collaborators that live outside this module (`cuj.src`/`cuj.de_src`,
`InWorkspace.ws_counterpart`, `finder.confirm`, `clone.get_cuj_group`,
`util.get_top_dir`/`get_out_dir`, `util.BuildType`) are modelled from the
spec as explicit parameters or minimal stand-ins; each such definition
says so in its doc comment.
-/

/-- A filesystem path, as the list of its components below the root;
`[]` is the root itself.  All paths handled by the recipes are absolute. -/
abbrev PathC := List String

/-- Embeds `pathlib.Path.is_relative_to`: `isRelativeTo p q` holds when
`q` is a component-wise ancestor-or-self of `p` (`q` a prefix of `p`). -/
def isRelativeTo : PathC → PathC → Bool
  | _, [] => true
  | [], _ :: _ => false
  | a :: p, b :: q => if b = a then isRelativeTo p q else false

/-- Embeds `pathlib.Path.name`: the final component (empty for the root). -/
def fileName (p : PathC) : String := p.getLast?.getD ""

/-- Embeds `pathlib.Path.with_name`: replace the final component. -/
def withName (p : PathC) (n : String) : PathC := p.dropLast ++ [n]

/-- The proper ancestors of a path, shortest first:
`ancestorsAsc [a,b,c] = [[], [a], [a,b]]`. -/
def ancestorsAsc : PathC → List PathC
  | [] => []
  | a :: p => [] :: (ancestorsAsc p).map (a :: ·)

/-- Embeds `pathlib.Path.parents`: the ancestors of `p`, deepest first,
ending with the root — `parentsOf [a,b,c] = [[a,b], [a], []]`. -/
def parentsOf (p : PathC) : List PathC := (ancestorsAsc p).reverse

/-- UTF-8 encoding of a single character, as written by Python's
text-mode `f.write` (the source comments "assume UTF-8",
cuj_catalog.py line 67). -/
def utf8Bytes (c : Char) : List Nat :=
  let n := c.toNat
  if n < 128 then [n]
  else if n < 2048 then [192 + n / 64, 128 + n % 64]
  else if n < 65536 then [224 + n / 4096, 128 + n / 64 % 64, 128 + n % 64]
  else [240 + n / 262144, 128 + n / 4096 % 64, 128 + n / 64 % 64, 128 + n % 64]

/-- UTF-8 encoding of a string, as the byte sequence Python's text-mode
`f.write(text)` appends to a file. -/
def utf8Encode (s : String) : List Nat := s.data.flatMap utf8Bytes

/-- Embeds the `add_line` closure of `modify_revert`
(cuj_catalog.py lines 61-63): open in append mode and write `text`,
i.e. append the UTF-8 encoding of `text` to the file's bytes. -/
def add_line (content : List Nat) (text : String) : List Nat :=
  content ++ utf8Encode text

/-- Embeds the `revert` closure of `modify_revert`
(cuj_catalog.py lines 65-69): `f.seek(-len(text), io.SEEK_END)` followed by
`f.truncate()` cuts the file to its byte size minus `len(text)` —
`len(text)` being Python's CHARACTER count of `text`, not its encoded
byte count. -/
def revert_truncate (content : List Nat) (nChars : Nat) : List Nat :=
  content.take (content.length - nChars)

/-- The generated marker line `f"//BOGUS {uuid.uuid4()}\n"`
(cuj_catalog.py lines 56-57, 284, 305, 336), with the uuid text `u`
supplied by the caller of the model. -/
def bogusMarker (u : String) : String := "//BOGUS " ++ u ++ "\n"

/-- The filesystem tree tracked by the recipes: finite lists of the file
paths and the directory paths that exist.  The root always exists. -/
structure Fs where
  files : List PathC
  dirs : List PathC
deriving DecidableEq

/-- Embeds `pathlib.Path.exists` against an `Fs`: the root, a file, or a
directory. -/
def Fs.existsPath (fs : Fs) (p : PathC) : Bool :=
  decide (p = []) || decide (p ∈ fs.files) || decide (p ∈ fs.dirs)

/-- Well-formedness of an `Fs`: every ancestor of an existing entry
exists (as the root or as a directory) — true of any real directory
tree. -/
def Fs.wellFormed (fs : Fs) : Prop :=
  ∀ p ∈ fs.files ++ fs.dirs, ∀ q ∈ parentsOf p, fs.existsPath q = true

instance (fs : Fs) : Decidable fs.wellFormed := by
  unfold Fs.wellFormed; infer_instance

/-- Embeds `missing_dirs = [f for f in file.parents if not f.exists()]`
(cuj_catalog.py line 150), evaluated against the existence oracle `ex`. -/
def missing_dirs (ex : PathC → Bool) (file : PathC) : List PathC :=
  (parentsOf file).filter (fun d => !(ex d))

/-- Embeds `shallowest_missing_dir = missing_dirs[-1] if len(missing_dirs)
else None` (cuj_catalog.py line 151). -/
def shallowest_missing_dir (ex : PathC → Bool) (file : PathC) : Option PathC :=
  (missing_dirs ex file).getLast?

/-- The filesystem mutation performed by the `create` closure of
`create_delete` (cuj_catalog.py lines 159-162) once its existence guard
has passed: `file.parent.mkdir(parents=True, exist_ok=True)` materializes
exactly the missing ancestors of `file`, then `touch` + `write` create the
file itself. -/
def createFs (fs : Fs) (file : PathC) : Fs :=
  { files := fs.files ++ [file]
    dirs := fs.dirs ++ missing_dirs fs.existsPath file }

/-- Embeds the `create` closure of `create_delete`
(cuj_catalog.py lines 153-162): raise `RuntimeError` if the target
already exists — before any directory or file is created — else
materialize missing parents and write the file. -/
def create (fs : Fs) (file : PathC) : Except String Fs :=
  if fs.existsPath file then
    .error "File already exists. Interrupted an earlier run?"
  else
    .ok (createFs fs file)

/-- The choice the `delete` closure of `create_delete` makes
(cuj_catalog.py lines 164-168), with the shallowest missing directory
captured at Group-construction time. -/
inductive DeleteAction
  | unlink (p : PathC)
  | rmtreeOf (d : PathC)
deriving DecidableEq

/-- Embeds the branch of the `delete` closure (cuj_catalog.py
lines 164-168): `shutil.rmtree(shallowest_missing_dir)` when one was
captured at construction time, else `file.unlink(missing_ok=False)`. -/
def delete_action (ex : PathC → Bool) (file : PathC) : DeleteAction :=
  match shallowest_missing_dir ex file with
  | some d => .rmtreeOf d
  | none => .unlink file

/-- Embeds `shutil.rmtree(d)`: remove `d` and everything below it. -/
def rmtree (fs : Fs) (d : PathC) : Fs :=
  { files := fs.files.filter (fun p => !(isRelativeTo p d))
    dirs := fs.dirs.filter (fun p => !(isRelativeTo p d)) }

/-- Embeds `file.unlink(missing_ok=False)`: remove the single file entry
(the source raises if the file is absent; callers only reach this after
`create` succeeded, so the entry is present). -/
def unlinkFs (fs : Fs) (file : PathC) : Fs :=
  { fs with files := fs.files.filter (fun p => !(decide (p = file))) }

/-- The filesystem mutation performed by the `delete` closure of
`create_delete` (cuj_catalog.py lines 164-168). -/
def deleteFs (ex : PathC → Bool) (file : PathC) (fs : Fs) : Fs :=
  match delete_action ex file with
  | .rmtreeOf d => rmtree fs d
  | .unlink p => unlinkFs fs p

/-- `true` exactly on `Except.error`. -/
def isErr {α : Type} : Except String α → Bool
  | .error _ => true
  | .ok _ => false

/-- `startsWithL pat s`: `pat` is a leading segment of the character
list `s`. -/
def startsWithL : List Char → List Char → Bool
  | [], _ => true
  | _ :: _, [] => false
  | a :: ps, b :: cs => if a = b then startsWithL ps cs else false

/-- First-occurrence replacement on character lists: replace the first
occurrence of `pat` (if any) by `rep`. -/
def replaceFirstAux (pat rep : List Char) : List Char → List Char
  | [] => []
  | c :: cs =>
    if startsWithL pat (c :: cs) then rep ++ (c :: cs).drop pat.length
    else c :: replaceFirstAux pat rep cs

/-- Models `re.sub(pattern, replacement, text, count=1)` for a pattern
and replacement that contain no regex metacharacters (a literal
substring substitution), as used with the literal patterns of
`modify_resource` and `add_resource`. -/
def reSubFirstLit (pat rep s : String) : String :=
  ⟨replaceFirstAux pat.data rep.data s.data⟩

/-- The execution-time state of one `regex_modify_revert` group
(cuj_catalog.py lines 88-97): the target file's text and the
`original_text` variable captured by the `modify` closure (`none` while
the variable is still unbound). -/
structure RegexRunState where
  fileText : String
  originalText : Option String
deriving DecidableEq

/-- Embeds the `modify` closure of `regex_modify_revert`
(cuj_catalog.py lines 90-94): capture the file's current text into
`original_text` (overwriting any earlier capture), substitute, and write
back.  `subst` stands for
`fun t => re.sub(pattern, replacement, t, count=1, flags=re.MULTILINE)`. -/
def regexModify (subst : String → String) (s : RegexRunState) : RegexRunState :=
  { fileText := subst s.fileText, originalText := some s.fileText }

/-- Embeds the `revert` closure of `regex_modify_revert`
(cuj_catalog.py lines 96-97): write `original_text` back verbatim;
`none` models the `NameError` raised when the variable was never set. -/
def regexRevert (s : RegexRunState) : Option RegexRunState :=
  match s.originalText with
  | some t => some { fileText := t, originalText := some t }
  | none => none

/-- Modelled from the spec: `util.BuildType` is a small closed set of
build-configuration modes; only `SOONG_ONLY` (the mode under which the
merged-build-file checks are skipped) is distinguished here. -/
inductive BuildType
  | SOONG_ONLY
  | MIXED
deriving DecidableEq

/-- The four workspace-relationship variants of `cuj.InWorkspace`
(spec section 3); this module only selects them, never interprets them. -/
inductive InWorkspace
  | SYMLINK
  | UNDER_SYMLINK
  | NOT_UNDER_SYMLINK
  | OMISSION
deriving DecidableEq

/-- The verification a `CujStep` carries, as data:
`inWs r p` is `r.verifier(p)`, `containsLine`/`notContainsLine` are the
two verifiers of `content_verfiers`, `andThen` is `cuj.sequence`, and
`skipFor` is the `cuj.skip_for` decoration. -/
inductive VerifyAction
  | noop
  | inWs (r : InWorkspace) (p : PathC)
  | containsLine (p : PathC) (content : String)
  | notContainsLine (p : PathC) (content : String)
  | andThen (a b : VerifyAction)
  | skipFor (bt : BuildType) (a : VerifyAction)
deriving DecidableEq

/-- The mutation a `CujStep` performs, as data.  The byte-level meaning
of `appendText`/`truncateByChars` is `add_line`/`revert_truncate`; the
tree-level meaning of `createFile`/`deleteTarget` is
`createFs`/`deleteFs`; `regexSub`/`writeBack` are interpreted by
`regexModify`/`regexRevert`. -/
inductive ApplyAction
  | noChange
  | appendText (file : PathC) (text : String)
  | truncateByChars (file : PathC) (nChars : Nat)
  | regexSub (file : PathC) (pattern replacement : String)
  | writeBack (file : PathC)
  | createFile (file : PathC) (text : String)
  | deleteTarget (captured : Option PathC) (file : PathC)
  | renamePath (a b : PathC)
  | seqApply (a b : ApplyAction)
  | cleanOut
deriving DecidableEq

/-- Embeds `cuj.CujStep`: a verb, an `apply_change` action and a
`verify` action. -/
structure CujStep where
  verb : String
  apply_change : ApplyAction
  verify : VerifyAction
deriving DecidableEq

/-- Embeds `cuj.CujGroup`: a description and an ordered list of steps. -/
structure CujGroup where
  description : String
  steps : List CujStep
deriving DecidableEq

/-- Modelled from the spec: `cuj.de_src(path)` recovers the logical,
repo-relative identifier of an absolute path, used as group
descriptions. -/
def de_src (p : PathC) : String := String.intercalate "/" p

/-- Modelled from the spec: `cuj.src(logical_id)` resolves a logical,
repo-relative identifier to an absolute path under the source root
`top`. -/
def srcOf (top : PathC) (id : String) : PathC := top ++ id.splitOn "/"

/-- `Warmup` (cuj_catalog.py line 46): a named no-op group. -/
def Warmup : CujGroup :=
  { description := "WARMUP"
    steps := [{ verb := "no change", apply_change := .noChange, verify := .noop }] }

/-- Embeds `modify_revert` (cuj_catalog.py lines 49-73): fail fast when
the file does not exist, else a "modify" step appending `text` (the
generated `//BOGUS` marker when the caller passed none) and a "revert"
step truncating by `len(text)` characters.  `ex` is the construction-time
existence oracle and `u` the generated uuid text. -/
def modify_revert (ex : PathC → Bool) (file : PathC) (u : String)
    (text : Option String) : Except String CujGroup :=
  let t := text.getD (bogusMarker u)
  if ex file then
    .ok { description := de_src file
          steps := [ { verb := "modify", apply_change := .appendText file t
                       verify := .noop }
                   , { verb := "revert", apply_change := .truncateByChars file t.length
                       verify := .noop } ] }
  else
    .error (de_src file ++ " does not exist")

/-- Embeds `regex_modify_revert` (cuj_catalog.py lines 76-101): fail fast
when the file does not exist, else a `modify_type` step performing the
single first-match substitution and a "revert" step writing the captured
original text back. -/
def regex_modify_revert (ex : PathC → Bool) (file : PathC)
    (pattern replacement modify_type : String) : Except String CujGroup :=
  if ex file then
    .ok { description := de_src file
          steps := [ { verb := modify_type
                       apply_change := .regexSub file pattern replacement
                       verify := .noop }
                   , { verb := "revert", apply_change := .writeBack file
                       verify := .noop } ] }
  else
    .error (de_src file ++ " does not exist")

/-- Pattern of `modify_private_method` (cuj_catalog.py line 105). -/
def pmPattern : String := "(private static boolean.*\x7b)"

/-- Replacement of `modify_private_method` (cuj_catalog.py line 106),
with `n` the drawn `random.randint(0,1000)`. -/
def pmReplacement (n : Nat) : String :=
  "\\1 Log.d(\"Placeholder\", \"Placeholder" ++ toString n ++ "\");"

/-- Pattern of `add_private_field` (cuj_catalog.py line 112). -/
def pfPattern : String := "^\\\x7d$"

/-- Replacement of `add_private_field` (cuj_catalog.py line 113). -/
def pfReplacement (n : Nat) : String :=
  "private static final int FOO = " ++ toString n ++ ";\n\x7d"

/-- Pattern of `add_public_api` (cuj_catalog.py line 119). -/
def paPattern : String := "\\\x7d$"

/-- Replacement of `add_public_api` (cuj_catalog.py line 120). -/
def paReplacement (n : Nat) : String :=
  "public static final int BAZ = " ++ toString n ++ ";\n\x7d"

/-- Pattern of `modify_resource` (cuj_catalog.py line 126). -/
def mrPattern : String := ">0<"

/-- Replacement of `modify_resource` (cuj_catalog.py line 127). -/
def mrReplacement (n : Nat) : String := ">" ++ toString n ++ "<"

/-- Pattern of `add_resource` (cuj_catalog.py line 133). -/
def arPattern : String := "</resources>"

/-- Replacement of `add_resource` (cuj_catalog.py line 134); the trailing
raw-string piece keeps a literal backslash-n, exactly as passed to
`re.sub`. -/
def arReplacement (n : Nat) : String :=
  "    <integer name=\"foo\">" ++ toString n ++ "</integer>\\n</resources>"

/-- Embeds `modify_private_method` (cuj_catalog.py lines 104-108). -/
def modify_private_method (ex : PathC → Bool) (file : PathC) (n : Nat) :
    Except String CujGroup :=
  regex_modify_revert ex file pmPattern (pmReplacement n) "modify_private_method"

/-- Embeds `add_private_field` (cuj_catalog.py lines 111-115). -/
def add_private_field (ex : PathC → Bool) (file : PathC) (n : Nat) :
    Except String CujGroup :=
  regex_modify_revert ex file pfPattern (pfReplacement n) "add_private_field"

/-- Embeds `add_public_api` (cuj_catalog.py lines 118-122). -/
def add_public_api (ex : PathC → Bool) (file : PathC) (n : Nat) :
    Except String CujGroup :=
  regex_modify_revert ex file paPattern (paReplacement n) "add_public_api"

/-- Embeds `modify_resource` (cuj_catalog.py lines 125-129). -/
def modify_resource (ex : PathC → Bool) (file : PathC) (n : Nat) :
    Except String CujGroup :=
  regex_modify_revert ex file mrPattern (mrReplacement n) "modify_resource"

/-- Embeds `add_resource` (cuj_catalog.py lines 132-136). -/
def add_resource (ex : PathC → Bool) (file : PathC) (n : Nat) :
    Except String CujGroup :=
  regex_modify_revert ex file arPattern (arReplacement n) "add_resource"

/-- The canned `regex_modify_revert` wrappers defined by the source, as
(substitution pattern, replacement, `modify_type` label) triples, in
source order (cuj_catalog.py lines 104-136). -/
def cannedVariants (n : Nat) : List (String × String × String) :=
  [ (pmPattern, pmReplacement n, "modify_private_method")
  , (pfPattern, pfReplacement n, "add_private_field")
  , (paPattern, paReplacement n, "add_public_api")
  , (mrPattern, mrReplacement n, "modify_resource")
  , (arPattern, arReplacement n, "add_resource") ]

/-- Embeds `create_delete` (cuj_catalog.py lines 139-176): a "create"
step writing `text` (or the generated `//Test File` content) verified
against the chosen workspace relationship `ws`, and a "delete" step —
with the shallowest missing directory captured at construction time —
verified against `OMISSION`. -/
def create_delete (ex : PathC → Bool) (file : PathC) (ws : InWorkspace)
    (u : String) (text : Option String) : CujGroup :=
  let t := text.getD ("//Test File: safe to delete " ++ u ++ "\n")
  { description := de_src file
    steps := [ { verb := "create", apply_change := .createFile file t
                 verify := .inWs ws file }
             , { verb := "delete"
                 apply_change := .deleteTarget (shallowest_missing_dir ex file) file
                 verify := .inWs .OMISSION file } ] }

/-- Embeds `create_delete_bp` (cuj_catalog.py lines 179-188):
`create_delete` with `SYMLINK` and canned `Android.bp` content. -/
def create_delete_bp (ex : PathC → Bool) (bp_file : PathC) (u : String) : CujGroup :=
  create_delete ex bp_file .SYMLINK u
    (some "filegroup \x7b name: \"test-bogus-filegroup\", srcs: [\"**/*.md\"] \x7d")

/-- Embeds `delete_restore` (cuj_catalog.py lines 191-222).  `top` and
`outDir` stand for `util.get_top_dir()` and `util.get_out_dir()` (modelled
from the spec: process-wide configuration supplied as parameters), and
`tempdir` for `tempfile.gettempdir()`.  Raise `SystemExit` when the temp
directory lies under either tree; otherwise return the backup location
`tempdir/{name}-{uuid}.bak` together with the delete/restore group. -/
def delete_restore (top outDir tempdir : PathC) (original : PathC)
    (ws : InWorkspace) (u : String) : Except String (PathC × CujGroup) :=
  if isRelativeTo tempdir top then
    .error ("Temp dir " ++ de_src tempdir ++ " is under source tree")
  else if isRelativeTo tempdir outDir then
    .error ("Temp dir " ++ de_src tempdir ++ " is under OUT dir")
  else
    let copied := tempdir ++ [fileName original ++ "-" ++ u ++ ".bak"]
    .ok (copied,
      { description := de_src original
        steps := [ { verb := "delete", apply_change := .renamePath original copied
                     verify := .inWs .OMISSION original }
                 , { verb := "restore", apply_change := .renamePath copied original
                     verify := .inWs ws original } ] })

/-- Embeds `replace_link_with_dir` (cuj_catalog.py lines 225-253):
create a file, replace it by a directory holding an `Android.bp`, then
delete the directory.  The unnamed fallback branch is unreachable —
`create_delete` always yields exactly two steps. -/
def replace_link_with_dir (ex : PathC → Bool) (p : PathC) (u : String) : CujGroup :=
  let cd := create_delete ex p .SYMLINK u none
  match cd.steps, (create_delete_bp ex (p ++ ["Android.bp"]) u).steps with
  | [create_file, delete_file], [create_dir, delete_dir] =>
      { description := cd.description
        steps := [ create_file
                 , { verb := de_src p ++ "/Android.bp instead of"
                     apply_change := .seqApply delete_file.apply_change create_dir.apply_change
                     verify := create_dir.verify }
                 , delete_dir ] }
  | _, _ => { description := cd.description, steps := [] }

/-- Embeds `content_verfiers` (cuj_catalog.py lines 256-280): the
contains / does-not-contain verifier pair over the merged workspace
build file, both decorated with `skip_for(BuildType.SOONG_ONLY)`. -/
def content_verfiers (ws_build_file : PathC) (content : String) :
    VerifyAction × VerifyAction :=
  ( .skipFor .SOONG_ONLY (.containsLine ws_build_file content)
  , .skipFor .SOONG_ONLY (.notContainsLine ws_build_file content) )

/-- Embeds `modify_revert_kept_build_file` (cuj_catalog.py
lines 283-301).  `wsc` stands for `InWorkspace.ws_counterpart` (modelled
from the spec: the derived-workspace counterpart resolver, assumed
correct, injected as a parameter). -/
def modify_revert_kept_build_file (ex : PathC → Bool) (wsc : PathC → PathC)
    (build_file : PathC) (u : String) : Except String CujGroup := do
  let content := bogusMarker u
  let g ← modify_revert ex build_file u (some content)
  match g.steps with
  | [step1, step2] =>
      let ws_build_file := withName (wsc build_file) "BUILD.bazel"
      let pair := content_verfiers ws_build_file content
      pure { description := de_src build_file
             steps := [ { verb := step1.verb, apply_change := step1.apply_change
                          verify := .andThen step1.verify pair.1 }
                      , { verb := step2.verb, apply_change := step2.apply_change
                          verify := .andThen step2.verify pair.2 } ] }
  | _ => .error "unexpected number of steps"

/-- Embeds `create_delete_kept_build_file` (cuj_catalog.py
lines 304-332): select the workspace relationship from the build file's
name (`BUILD.bazel` → `NOT_UNDER_SYMLINK`, `BUILD` → `SYMLINK`, anything
else → fatal `RuntimeError`), then extend both `create_delete` steps with
the merged-build-file content checks. -/
def create_delete_kept_build_file (ex : PathC → Bool) (wsc : PathC → PathC)
    (build_file : PathC) (u : String) : Except String CujGroup := do
  let content := bogusMarker u
  let ws_build_file := withName (wsc build_file) "BUILD.bazel"
  let ws ← if fileName build_file = "BUILD.bazel" then
             pure InWorkspace.NOT_UNDER_SYMLINK
           else if fileName build_file = "BUILD" then
             pure InWorkspace.SYMLINK
           else
             .error ("Illegal name for a build file " ++ de_src build_file)
  let pair := content_verfiers ws_build_file content
  match (create_delete ex build_file ws u (some content)).steps with
  | [step1, step2] =>
      pure { description := de_src build_file
             steps := [ { verb := step1.verb, apply_change := step1.apply_change
                          verify := .andThen step1.verify pair.1 }
                      , { verb := step2.verb, apply_change := step2.apply_change
                          verify := .andThen step2.verify pair.2 } ] }
  | _ => .error "unexpected number of steps"

/-- Embeds `create_delete_unkept_build_file` (cuj_catalog.py
lines 335-357): `create_delete` with `SYMLINK`, both steps extended with
the does-not-contain check. -/
def create_delete_unkept_build_file (ex : PathC → Bool) (wsc : PathC → PathC)
    (build_file : PathC) (u : String) : Except String CujGroup := do
  let content := bogusMarker u
  let ws_build_file := withName (wsc build_file) "BUILD.bazel"
  let pair := content_verfiers ws_build_file content
  match (create_delete ex build_file .SYMLINK u (some content)).steps with
  | [step1, step2] =>
      pure { description := de_src build_file
             steps := [ { verb := step1.verb, apply_change := step1.apply_change
                          verify := .andThen step1.verify pair.2 }
                      , { verb := step2.verb, apply_change := step2.apply_change
                          verify := .andThen step2.verify pair.2 } ] }
  | _ => .error "unexpected number of steps"

/-- Modelled from the spec: `finder.confirm(root, *patterns)` raises
fatally when a must-match / must-not-match glob expectation on `root` is
violated.  Its internals live outside this module, so the outcome is the
environment-supplied verdict `verdict root patterns`. -/
def confirm (verdict : PathC → List String → Bool) (root : PathC)
    (patterns : List String) : Except String Unit :=
  if verdict root patterns then .ok ()
  else .error (de_src root ++ ": structural confirmation failed")

/-- Modelled from the spec: `clone.get_cuj_group` (the bulk-generation
collaborator) returns a Group exercising every matching build-definition
fragment; only its presence in the catalog and its name matter here. -/
def clone_get_cuj_group (name : String) : CujGroup :=
  { description := name, steps := [] }

/-- The process-wide context `get_cujgroups` reads: the source root and
output directory, the system temp directory, the construction-time
existence oracle, the `finder.confirm` verdicts, the workspace
counterpart resolver, the generated uuid text and the drawn random
number (modelled from the spec: global configuration and collaborators,
injected explicitly). -/
structure CatalogEnv where
  top : PathC
  outDir : PathC
  tempdir : PathC
  existsF : PathC → Bool
  verdict : PathC → List String → Bool
  wsc : PathC → PathC
  u : String
  rnd : Nat

/-- Patterns `finder.confirm` checks on `src("art")`
(cuj_catalog.py line 408). -/
def pkgPatterns : List String := ["*/*", "Android.bp", "!BUILD*"]

/-- Patterns checked on `src("bionic/docs")` (cuj_catalog.py line 410). -/
def pkgFreePatterns : List String := ["*/*", "!**/Android.bp", "!**/BUILD*"]

/-- Patterns checked on `src("bionic")` (cuj_catalog.py line 412). -/
def ancestorPatterns : List String := ["**/Android.bp", "!Android.bp", "!BUILD*"]

/-- Patterns checked on `src("bionic/build")` (cuj_catalog.py line 414). -/
def leafPkgFreePatterns : List String := ["!*/*", "!**/Android.bp", "!**/BUILD*"]

/-- Patterns checked on `src("build/bazel")` (cuj_catalog.py
lines 363-369). -/
def keptPatterns : List String :=
  ["compliance/Android.bp", "!compliance/BUILD", "!compliance/BUILD.bazel",
   "rules/python/BUILD"]

/-- Patterns checked on `src("bionic/libm")` (cuj_catalog.py line 384). -/
def unkeptPatterns : List String := ["Android.bp", "!BUILD", "!BUILD.bazel"]

/-- Embeds `_kept_build_cujs` (cuj_catalog.py lines 360-378): confirm the
structural assumptions on `build/bazel` first, then build the four
kept-build-file groups. -/
def _kept_build_cujs (env : CatalogEnv) : Except String (List CujGroup) := do
  let kept := srcOf env.top "build/bazel"
  let _ ← confirm env.verdict kept keptPatterns
  let g1 ← create_delete_kept_build_file env.existsF env.wsc
             (kept ++ ["compliance", "BUILD"]) env.u
  let g2 ← create_delete_kept_build_file env.existsF env.wsc
             (kept ++ ["compliance", "BUILD.bazel"]) env.u
  let g3 := create_delete env.existsF (kept ++ ["BUILD", "kept-dir"])
              .SYMLINK env.u none
  let g4 ← modify_revert_kept_build_file env.existsF env.wsc
             (kept ++ ["rules", "python", "BUILD"]) env.u
  pure [g1, g2, g3, g4]

/-- Embeds `_unkept_build_cujs` (cuj_catalog.py lines 381-398): confirm
the structural assumptions on `bionic/libm` first, then build the five
unkept-build-file groups. -/
def _unkept_build_cujs (env : CatalogEnv) : Except String (List CujGroup) := do
  let unkept := srcOf env.top "bionic/libm"
  let _ ← confirm env.verdict unkept unkeptPatterns
  let g1 ← create_delete_unkept_build_file env.existsF env.wsc
             (unkept ++ ["BUILD"]) env.u
  let g2 ← create_delete_unkept_build_file env.existsF env.wsc
             (unkept ++ ["BUILD.bazel"]) env.u
  let g3 := create_delete env.existsF (unkept ++ ["bogus-unkept", "BUILD"])
              .OMISSION env.u none
  let g4 := create_delete env.existsF (unkept ++ ["bogus-unkept", "BUILD.bazel"])
              .OMISSION env.u none
  let g5 := create_delete env.existsF (unkept ++ ["BUILD", "unkept-dir"])
              .SYMLINK env.u none
  pure [g1, g2, g3, g4, g5]

/-- Embeds `get_cujgroups` (cuj_catalog.py lines 401-501), preserving the
source's evaluation order: the four structural confirmations first, then
the per-theme group constructions, then the final catalog list — during
whose construction `create_delete(globbed.c)`, the two `delete_restore`
groups, `_unkept_build_cujs`, `_kept_build_cujs` and
`replace_link_with_dir` are evaluated.  Any raise aborts the whole
routine: no partial catalog is ever returned. -/
def get_cujgroups (env : CatalogEnv) : Except String (List CujGroup) := do
  let pkg := srcOf env.top "art"
  let _ ← confirm env.verdict pkg pkgPatterns
  let pkg_free := srcOf env.top "bionic/docs"
  let _ ← confirm env.verdict pkg_free pkgFreePatterns
  let ancestor := srcOf env.top "bionic"
  let _ ← confirm env.verdict ancestor ancestorPatterns
  let leaf_pkg_free := srcOf env.top "bionic/build"
  let _ ← confirm env.verdict leaf_pkg_free leafPkgFreePatterns
  let mr0 ← modify_revert env.existsF (srcOf env.top "Android.bp") env.u none
  let android_bp_cujs :=
    [ mr0
    , create_delete_bp env.existsF (ancestor ++ ["Android.bp"]) env.u
    , create_delete_bp env.existsF (pkg_free ++ ["Android.bp"]) env.u
    , create_delete_bp env.existsF (leaf_pkg_free ++ ["Android.bp"]) env.u ]
  let mb1 ← modify_revert env.existsF (srcOf env.top "bionic/libc/tzcode/asctime.c") env.u none
  let mb2 ← modify_revert env.existsF (srcOf env.top "bionic/libc/stdio/stdio.cpp") env.u none
  let mb3 ← modify_revert env.existsF (srcOf env.top "packages/modules/adb/daemon/main.cpp") env.u none
  let mb4 ← modify_revert env.existsF (srcOf env.top "frameworks/base/core/java/android/view/View.java") env.u none
  let settings := srcOf env.top "frameworks/base/core/java/android/provider/Settings.java"
  let mb5 ← modify_revert env.existsF settings env.u none
  let mb6 ← modify_private_method env.existsF settings env.rnd
  let mb7 ← add_private_field env.existsF settings env.rnd
  let mb8 ← add_public_api env.existsF settings env.rnd
  let ams := srcOf env.top "frameworks/base/services/core/java/com/android/server/am/ActivityManagerService.java"
  let mb9 ← modify_private_method env.existsF ams env.rnd
  let mb10 ← add_private_field env.existsF ams env.rnd
  let mb11 ← add_public_api env.existsF ams env.rnd
  let configXml := srcOf env.top "frameworks/base/core/res/res/values/config.xml"
  let mb12 ← modify_resource env.existsF configXml env.rnd
  let mb13 ← add_resource env.existsF configXml env.rnd
  let mixed_build_launch_cujs :=
    [mb1, mb2, mb3, mb4, mb5, mb6, mb7, mb8, mb9, mb10, mb11, mb12, mb13]
  let unreferenced_file_cujs :=
    [ create_delete env.existsF (ancestor ++ ["unreferenced.txt"]) .SYMLINK env.u none
    , create_delete env.existsF (pkg ++ ["unreferenced.txt"]) .SYMLINK env.u none
    , create_delete env.existsF (pkg_free ++ ["unreferenced.txt"]) .UNDER_SYMLINK env.u none
    , create_delete env.existsF (leaf_pkg_free ++ ["unreferenced.txt"]) .UNDER_SYMLINK env.u none ]
  let cloning_cujs :=
    [ clone_get_cuj_group "genrules"
    , clone_get_cuj_group "cc_"
    , clone_get_cuj_group "adbd"
    , clone_get_cuj_group "libNN"
    , clone_get_cuj_group "adbd&libNN" ]
  let cleanGroup : CujGroup :=
    { description := ""
      steps := [{ verb := "clean", apply_change := .cleanOut, verify := .noop }] }
  let warmupGroup : CujGroup := { description := "", steps := Warmup.steps }
  let cdGlobbed := create_delete env.existsF
    (srcOf env.top "bionic/libc/tzcode/globbed.c") .UNDER_SYMLINK env.u none
  let dr1 ← delete_restore env.top env.outDir env.tempdir
    (srcOf env.top "bionic/libc/version_script.txt") .SYMLINK env.u
  let dr2 ← delete_restore env.top env.outDir env.tempdir
    (srcOf env.top "external/cbor-java/AndroidManifest.xml") .SYMLINK env.u
  let unkeptGroups ← _unkept_build_cujs env
  let keptGroups ← _kept_build_cujs env
  pure ([cleanGroup, warmupGroup] ++ cloning_cujs ++ [cdGlobbed, dr1.2, dr2.2]
        ++ unreferenced_file_cujs ++ mixed_build_launch_cujs ++ android_bp_cujs
        ++ unkeptGroups ++ keptGroups
        ++ [replace_link_with_dir env.existsF (pkg ++ ["bogus.txt"]) env.u])

theorem relTo_nil (p : PathC) : isRelativeTo p [] = true := by
  cases p <;> simp [isRelativeTo]

theorem relTo_of_le (p : PathC) : ∀ a b : PathC, isRelativeTo p a = true →
    isRelativeTo p b = true → b.length ≤ a.length → isRelativeTo a b = true := by
  induction p with
  | nil =>
    intro a b ha hb _
    cases a with
    | nil =>
      cases b with
      | nil => rfl
      | cons y bs => simp [isRelativeTo] at hb
    | cons z as => simp [isRelativeTo] at ha
  | cons x ps ih =>
    intro a b ha hb hlen
    cases b with
    | nil => exact relTo_nil a
    | cons y bs =>
      cases a with
      | nil => simp at hlen
      | cons z as =>
        simp only [isRelativeTo] at ha hb ⊢
        split at ha
        next hzx =>
          split at hb
          next hyx =>
            rw [if_pos (hyx.trans hzx.symm)]
            simp only [List.length_cons] at hlen
            exact ih as bs ha hb (by omega)
          next => simp at hb
        next => simp at ha

theorem relTo_append_one (q : PathC) : ∀ (td : PathC) (x : String),
    isRelativeTo td q = false → q ≠ td ++ [x] →
    isRelativeTo (td ++ [x]) q = false := by
  induction q with
  | nil =>
    intro td x h1 _
    rw [relTo_nil] at h1
    simp at h1
  | cons b qs ih =>
    intro td x h1 h2
    cases td with
    | nil =>
      simp only [List.nil_append, isRelativeTo]
      split
      next hbx =>
        cases qs with
        | nil => exact absurd (by simp [hbx]) h2
        | cons c t => rfl
      next => rfl
    | cons a ts =>
      simp only [List.cons_append, isRelativeTo]
      split
      next hba =>
        simp only [isRelativeTo, if_pos hba] at h1
        refine ih ts x h1 ?_
        intro hc
        exact h2 (by rw [hba, hc, List.cons_append])
      next => rfl

theorem utf8Bytes_length_one (c : Char) (h : c.toNat < 128) :
    (utf8Bytes c).length = 1 := by
  simp [utf8Bytes, h]

theorem flatMap_utf8_len (l : List Char) (h : ∀ c ∈ l, c.toNat < 128) :
    (l.flatMap utf8Bytes).length = l.length := by
  induction l with
  | nil => rfl
  | cons c t ih =>
    rw [List.flatMap_cons, List.length_append, utf8Bytes_length_one c (h c (by simp)),
        ih (fun d hd => h d (by simp [hd])), List.length_cons]
    omega

theorem utf8Encode_length_ascii (s : String) (h : ∀ c ∈ s.data, c.toNat < 128) :
    (utf8Encode s).length = s.length :=
  flatMap_utf8_len s.data h

theorem roundtrip_ascii (content : List Nat) (text : String)
    (h : ∀ c ∈ text.data, c.toNat < 128) :
    revert_truncate (add_line content text) text.length = content := by
  rw [add_line, revert_truncate, List.length_append, utf8Encode_length_ascii text h,
      Nat.add_sub_cancel]
  exact List.take_left content (utf8Encode text)

/-- C1 counterexample: the claim covers caller-supplied text as well, but
with the two-byte character `é` in the text, `modify_revert`'s revert
truncates by the character count (2) after the append grew the file by
the encoded byte count (3), leaving one extra byte: the reverted file is
not byte-identical to the original. -/
theorem modify_revert_non_ascii_counterexample :
    revert_truncate (add_line (utf8Encode "hello\n") "é\n") "é\n".length
      ≠ utf8Encode "hello\n" := by decide

/-- C1 (amended): for every file and every appended text whose characters
each encode to a single UTF-8 byte — in particular the generated
`//BOGUS <uuid>` marker line, which is pure ASCII — running the modify
step and then the revert step leaves the file byte-identical to its
original content. -/
theorem modify_revert_roundtrip (content : List Nat) (text : String)
    (h : ∀ c ∈ text.data, c.toNat < 128) :
    revert_truncate (add_line content text) text.length = content :=
  roundtrip_ascii content text h

theorem modify_revert_roundtrip_witness :
    revert_truncate (add_line (utf8Encode "hello\n") (bogusMarker "0"))
        (bogusMarker "0").length
      = utf8Encode "hello\n" :=
  modify_revert_roundtrip (utf8Encode "hello\n") (bogusMarker "0") (by decide)

/-- C9: `modify_revert`'s revert step seeks back from end-of-file by the
character count of the appended text (`truncateByChars text.length` in
the group it constructs), not its encoded byte count: the round trip is
byte-identical for every text whose UTF-8 encoding is one byte per
character, and the caller-supplied text `"λ\n"` leaves the reverted file
different from the original. -/
theorem revert_seeks_by_char_count :
    (∀ (ex : PathC → Bool) (file : PathC) (u : String) (text : Option String)
        (g : CujGroup), modify_revert ex file u text = .ok g →
        g.steps.map CujStep.apply_change
          = [ .appendText file (text.getD (bogusMarker u))
            , .truncateByChars file (text.getD (bogusMarker u)).length ])
    ∧ (∀ (content : List Nat) (text : String), (∀ c ∈ text.data, c.toNat < 128) →
        revert_truncate (add_line content text) text.length = content)
    ∧ revert_truncate (add_line (utf8Encode "ok\n") "λ\n") "λ\n".length
        ≠ utf8Encode "ok\n" := by
  refine ⟨?_, fun content text h => roundtrip_ascii content text h, by decide⟩
  intro ex file u text g hg
  rw [modify_revert] at hg
  split at hg
  · cases hg
    rfl
  · cases hg

/-- C3 counterexample: applying the modify step of a
`regex_modify_revert` group twice without an intervening revert does NOT
fail any precondition — the second application succeeds and overwrites
the captured original-text variable with the already-modified file text
(here `<i>7</i>` replaces the true original `<i>0</i>`). -/
theorem regex_modify_double_counterexample :
    (regexModify (reSubFirstLit ">0<" ">7<")
        (regexModify (reSubFirstLit ">0<" ">7<")
          { fileText := "<i>0</i>", originalText := none })).originalText
      ≠ (regexModify (reSubFirstLit ">0<" ">7<")
          { fileText := "<i>0</i>", originalText := none }).originalText := by
  decide

/-- C3 (amended): the `modify` closure of `regex_modify_revert` has no
precondition guard: a second application without an intervening revert
always succeeds and re-captures the already-modified file text as the
new original, so a subsequent revert restores the once-modified text
`subst s.fileText`, not the true original `s.fileText`. -/
theorem regex_modify_double_apply (subst : String → String) (s : RegexRunState) :
    (regexModify subst (regexModify subst s)).originalText
        = some (regexModify subst s).fileText
    ∧ (regexRevert (regexModify subst (regexModify subst s))).map
          RegexRunState.fileText
        = some (subst s.fileText) :=
  ⟨rfl, rfl⟩

theorem regex_modify_double_apply_witness :
    (regexModify (reSubFirstLit "a" "b")
        (regexModify (reSubFirstLit "a" "b")
          { fileText := "aa", originalText := none })).originalText
        = some (regexModify (reSubFirstLit "a" "b")
            { fileText := "aa", originalText := none }).fileText
    ∧ (regexRevert (regexModify (reSubFirstLit "a" "b")
          (regexModify (reSubFirstLit "a" "b")
            { fileText := "aa", originalText := none }))).map
          RegexRunState.fileText
        = some (reSubFirstLit "a" "b" "aa") :=
  regex_modify_double_apply (reSubFirstLit "a" "b")
    { fileText := "aa", originalText := none }

/-- C4: invoking `create_delete`'s create step while the target already
exists raises `RuntimeError` — the guard runs before `mkdir`, `touch`
and `write`, so the error is returned with no mutation performed. -/
theorem create_existing_fatal (fs : Fs) (file : PathC)
    (h : fs.existsPath file = true) :
    create fs file = .error "File already exists. Interrupted an earlier run?" := by
  simp [create, h]

theorem create_existing_fatal_witness :
    create { files := [["a", "f.txt"]], dirs := [["a"]] } ["a", "f.txt"]
      = .error "File already exists. Interrupted an earlier run?" :=
  create_existing_fatal { files := [["a", "f.txt"]], dirs := [["a"]] }
    ["a", "f.txt"] (by decide)

/-- C7: for a path that does not exist, both `modify_revert` and
`regex_modify_revert` fail at Group-construction time, before any step
is part of a group. -/
theorem missing_target_fatal (ex : PathC → Bool) (file : PathC) (u : String)
    (text : Option String) (pat rep mt : String)
    (h : ex file = false) :
    isErr (modify_revert ex file u text) = true
    ∧ isErr (regex_modify_revert ex file pat rep mt) = true := by
  constructor <;> simp [modify_revert, regex_modify_revert, h, isErr]

theorem missing_target_fatal_witness :
    isErr (modify_revert (fun _ => false) ["x"] "u" none) = true
    ∧ isErr (regex_modify_revert (fun _ => false) ["x"] "p" "r" "t") = true :=
  missing_target_fatal (fun _ => false) ["x"] "u" none "p" "r" "t" rfl

theorem mem_ancestorsAsc (p : PathC) : ∀ q : PathC,
    q ∈ ancestorsAsc p ↔ (isRelativeTo p q = true ∧ q ≠ p) := by
  induction p with
  | nil =>
    intro q
    cases q with
    | nil => simp [ancestorsAsc]
    | cons b qs => simp [ancestorsAsc, isRelativeTo]
  | cons a ps ih =>
    intro q
    cases q with
    | nil => simp [ancestorsAsc, relTo_nil]
    | cons b qs =>
      simp only [ancestorsAsc, List.mem_cons, List.mem_map]
      constructor
      · rintro (h | ⟨q', hq', hmap⟩)
        · exact absurd h (by simp)
        · obtain ⟨hb, hqs⟩ : a = b ∧ q' = qs := by
            constructor <;> (cases hmap; rfl)
          subst hb hqs
          obtain ⟨h1, h2⟩ := (ih q').mp hq'
          refine ⟨by simp [isRelativeTo, h1], by simp [h2]⟩
      · rintro ⟨h1, h2⟩
        simp only [isRelativeTo] at h1
        split at h1
        next hba =>
          subst hba
          refine Or.inr ⟨qs, (ih qs).mpr ⟨h1, by intro hc; exact h2 (by rw [hc])⟩, rfl⟩
        next => simp at h1

theorem pairwise_len_ancestorsAsc (p : PathC) :
    (ancestorsAsc p).Pairwise (fun a b : PathC => a.length < b.length) := by
  induction p with
  | nil => exact List.Pairwise.nil
  | cons a ps ih =>
    refine List.Pairwise.cons ?_ ?_
    · intro b hb
      obtain ⟨q', _, hq'⟩ := List.mem_map.mp hb
      subst hq'
      simp
    · exact (List.pairwise_map.mpr (ih.imp (by intro x y h; simpa using h)))

theorem pairwise_len_parentsOf (p : PathC) :
    (parentsOf p).Pairwise (fun a b : PathC => b.length < a.length) := by
  rw [parentsOf, List.pairwise_reverse]
  exact pairwise_len_ancestorsAsc p

theorem mem_parentsOf (p q : PathC) :
    q ∈ parentsOf p ↔ (isRelativeTo p q = true ∧ q ≠ p) := by
  rw [parentsOf, List.mem_reverse]
  exact mem_ancestorsAsc p q

theorem mem_of_getLastQ {α : Type} {l : List α} {d : α}
    (h : l.getLast? = some d) : d ∈ l := by
  induction l with
  | nil => simp [List.getLast?] at h
  | cons a t ih =>
    cases t with
    | nil =>
      simp only [List.getLast?_singleton, Option.some.injEq] at h
      simp [h]
    | cons b t2 =>
      rw [List.getLast?_cons_cons] at h
      exact List.mem_cons_of_mem a (ih h)

theorem getLastQ_min {l : List PathC}
    (hp : l.Pairwise (fun a b : PathC => b.length < a.length)) {d : PathC}
    (h : l.getLast? = some d) : ∀ q ∈ l, d.length ≤ q.length := by
  induction l with
  | nil => simp [List.getLast?] at h
  | cons a t ih =>
    cases t with
    | nil =>
      simp only [List.getLast?_singleton, Option.some.injEq] at h
      subst h
      intro q hq
      simp only [List.mem_singleton] at hq
      subst hq
      exact le_refl _
    | cons b t2 =>
      rw [List.getLast?_cons_cons] at h
      intro q hq
      rcases List.mem_cons.mp hq with hqa | hqt
      · subst hqa
        have hd : d ∈ b :: t2 := mem_of_getLastQ h
        have := (List.pairwise_cons.mp hp).1 d hd
        omega
      · exact ih (List.pairwise_cons.mp hp).2 h q hqt

theorem mem_missing_dirs (ex : PathC → Bool) (file q : PathC) :
    q ∈ missing_dirs ex file ↔ (q ∈ parentsOf file ∧ ex q = false) := by
  simp [missing_dirs, List.mem_filter]

theorem pairwise_len_missing_dirs (ex : PathC → Bool) (file : PathC) :
    (missing_dirs ex file).Pairwise (fun a b : PathC => b.length < a.length) :=
  (pairwise_len_parentsOf file).filter _

theorem existsPath_false_iff (fs : Fs) (p : PathC) :
    fs.existsPath p = false ↔ (p ≠ [] ∧ p ∉ fs.files ∧ p ∉ fs.dirs) := by
  simp [Fs.existsPath, and_assoc]

theorem no_entry_under_missing (fs : Fs) (hwf : fs.wellFormed) (d : PathC)
    (hd : fs.existsPath d = false) :
    ∀ p ∈ fs.files ++ fs.dirs, isRelativeTo p d = false := by
  intro p hp
  by_contra hc
  rw [← ne_eq, Bool.ne_false_iff] at hc
  by_cases hdp : d = p
  · subst hdp
    obtain ⟨_, hnf, hnd⟩ := (existsPath_false_iff fs d).mp hd
    rcases List.mem_append.mp hp with h | h
    · exact hnf h
    · exact hnd h
  · have hmem : d ∈ parentsOf p := (mem_parentsOf p d).mpr ⟨hc, hdp⟩
    have := hwf p hp d hmem
    rw [hd] at this
    exact Bool.false_ne_true this

theorem rmtree_createFs (fs : Fs) (file d : PathC) (hwf : fs.wellFormed)
    (hnx : fs.existsPath file = false)
    (hd : shallowest_missing_dir fs.existsPath file = some d) :
    rmtree (createFs fs file) d = fs := by
  have hdm : d ∈ missing_dirs fs.existsPath file := mem_of_getLastQ hd
  obtain ⟨hdpar, hdmiss⟩ := (mem_missing_dirs fs.existsPath file d).mp hdm
  have hrelfd : isRelativeTo file d = true := ((mem_parentsOf file d).mp hdpar).1
  have hmin : ∀ q ∈ missing_dirs fs.existsPath file, d.length ≤ q.length :=
    getLastQ_min (pairwise_len_missing_dirs fs.existsPath file) hd
  have hentries := no_entry_under_missing fs hwf d hdmiss
  have hmissrel : ∀ q ∈ missing_dirs fs.existsPath file, isRelativeTo q d = true := by
    intro q hq
    obtain ⟨hqpar, _⟩ := (mem_missing_dirs fs.existsPath file q).mp hq
    have hrelfq : isRelativeTo file q = true := ((mem_parentsOf file q).mp hqpar).1
    exact relTo_of_le file q d hrelfq hrelfd (hmin q hq)
  obtain ⟨fls, drs⟩ := fs
  simp only [rmtree, createFs, Fs.mk.injEq]
  constructor
  · rw [List.filter_append]
    have h1 : fls.filter (fun p => !(isRelativeTo p d)) = fls :=
      List.filter_eq_self.mpr (fun p hp => by
        rw [hentries p (List.mem_append_left _ hp)]; rfl)
    have h2 : [file].filter (fun p => !(isRelativeTo p d)) = [] := by
      simp [hrelfd]
    rw [h1, h2, List.append_nil]
  · rw [List.filter_append]
    have h1 : drs.filter (fun p => !(isRelativeTo p d)) = drs :=
      List.filter_eq_self.mpr (fun p hp => by
        rw [hentries p (List.mem_append_right _ hp)]; rfl)
    have h2 : (missing_dirs (Fs.mk fls drs).existsPath file).filter
        (fun p => !(isRelativeTo p d)) = [] := by
      rw [List.filter_eq_nil_iff]
      intro q hq
      rw [hmissrel q hq]
      simp
    rw [h1, h2, List.append_nil]

theorem unlink_createFs (fs : Fs) (file : PathC)
    (hnx : fs.existsPath file = false)
    (hmiss : missing_dirs fs.existsPath file = []) :
    unlinkFs (createFs fs file) file = fs := by
  obtain ⟨_, hnf, _⟩ := (existsPath_false_iff fs file).mp hnx
  obtain ⟨fls, drs⟩ := fs
  simp only [createFs] at hmiss ⊢
  simp only [unlinkFs, hmiss, List.append_nil, Fs.mk.injEq, and_true]
  rw [List.filter_append]
  have h1 : fls.filter (fun p => !(decide (p = file))) = fls :=
    List.filter_eq_self.mpr (fun p hp => by
      have : p ≠ file := fun hc => hnf (hc ▸ hp)
      simp [this])
  have h2 : [file].filter (fun p => !(decide (p = file))) = [] := by simp
  rw [h1, h2, List.append_nil]

/-- C2: for a `create_delete(file, ws)` group built over filesystem `fs`
(well-formed, target absent): when every parent of `file` exists at
construction time the delete step unlinks exactly that single file, and
when some parents are missing it recursively removes the captured
shallowest missing ancestor — the missing parent closest to the root
(of minimal length among the missing parents) — and in both cases
create followed by delete restores the pre-existing tree exactly. -/
theorem create_delete_delete_semantics (fs : Fs) (file : PathC)
    (hwf : fs.wellFormed) (hnx : fs.existsPath file = false) :
    (missing_dirs fs.existsPath file = [] →
        delete_action fs.existsPath file = .unlink file
        ∧ deleteFs fs.existsPath file (createFs fs file) = fs)
    ∧ (∀ d : PathC, shallowest_missing_dir fs.existsPath file = some d →
        delete_action fs.existsPath file = .rmtreeOf d
        ∧ d ∈ missing_dirs fs.existsPath file
        ∧ (∀ q ∈ missing_dirs fs.existsPath file, d.length ≤ q.length)
        ∧ deleteFs fs.existsPath file (createFs fs file) = fs) := by
  constructor
  · intro hmiss
    have hact : delete_action fs.existsPath file = .unlink file := by
      simp [delete_action, shallowest_missing_dir, hmiss]
    refine ⟨hact, ?_⟩
    simp only [deleteFs, hact]
    exact unlink_createFs fs file hnx hmiss
  · intro d hd
    have hact : delete_action fs.existsPath file = .rmtreeOf d := by
      simp [delete_action, hd]
    refine ⟨hact, mem_of_getLastQ hd,
      getLastQ_min (pairwise_len_missing_dirs fs.existsPath file) hd, ?_⟩
    simp only [deleteFs, hact]
    exact rmtree_createFs fs file d hwf hnx hd

theorem create_delete_delete_semantics_witness :
    delete_action (Fs.mk [["a", "x.txt"]] [["a"]]).existsPath ["a", "b", "c.txt"]
        = .rmtreeOf ["a", "b"]
    ∧ ["a", "b"] ∈ missing_dirs (Fs.mk [["a", "x.txt"]] [["a"]]).existsPath
        ["a", "b", "c.txt"]
    ∧ (∀ q ∈ missing_dirs (Fs.mk [["a", "x.txt"]] [["a"]]).existsPath
          ["a", "b", "c.txt"], (["a", "b"] : PathC).length ≤ q.length)
    ∧ deleteFs (Fs.mk [["a", "x.txt"]] [["a"]]).existsPath ["a", "b", "c.txt"]
          (createFs (Fs.mk [["a", "x.txt"]] [["a"]]) ["a", "b", "c.txt"])
        = Fs.mk [["a", "x.txt"]] [["a"]] :=
  (create_delete_delete_semantics (Fs.mk [["a", "x.txt"]] [["a"]])
    ["a", "b", "c.txt"] (by decide) (by decide)).2 ["a", "b"] (by decide)

/-- C6: `delete_restore` refuses to construct its group (raising
`SystemExit`) whenever the system temp directory lies under the tracked
source tree or under the build output tree; otherwise the backup
location it moves the file to is `tempdir/{name}-{uuid}.bak`, which lies
outside both trees (the two disequality hypotheses rule out the
degenerate case of a tree root coinciding with the freshly uuid-named
backup path itself). -/
theorem delete_restore_tempdir_safety (top outDir tempdir original : PathC)
    (ws : InWorkspace) (u : String) :
    ((isRelativeTo tempdir top = true ∨ isRelativeTo tempdir outDir = true) →
        isErr (delete_restore top outDir tempdir original ws u) = true)
    ∧ (isRelativeTo tempdir top = false → isRelativeTo tempdir outDir = false →
        top ≠ tempdir ++ [fileName original ++ "-" ++ u ++ ".bak"] →
        outDir ≠ tempdir ++ [fileName original ++ "-" ++ u ++ ".bak"] →
        (delete_restore top outDir tempdir original ws u).map Prod.fst
            = .ok (tempdir ++ [fileName original ++ "-" ++ u ++ ".bak"])
        ∧ isRelativeTo (tempdir ++ [fileName original ++ "-" ++ u ++ ".bak"]) top
            = false
        ∧ isRelativeTo (tempdir ++ [fileName original ++ "-" ++ u ++ ".bak"]) outDir
            = false) := by
  constructor
  · intro h
    by_cases h1 : isRelativeTo tempdir top = true
    · simp [delete_restore, h1, isErr]
    · rcases h with h | h
      · exact absurd h h1
      · simp [delete_restore, h, h1, isErr]
  · intro h1 h2 h3 h4
    refine ⟨by simp [delete_restore, h1, h2, Except.map], ?_, ?_⟩
    · exact relTo_append_one top tempdir _ h1 h3
    · exact relTo_append_one outDir tempdir _ h2 h4

theorem delete_restore_tempdir_safety_witness :
    (delete_restore ["s"] ["o"] ["tmp"] ["s", "v.txt"] .SYMLINK "u").map Prod.fst
        = .ok (["tmp"] ++ [fileName ["s", "v.txt"] ++ "-" ++ "u" ++ ".bak"])
    ∧ isRelativeTo (["tmp"] ++ [fileName ["s", "v.txt"] ++ "-" ++ "u" ++ ".bak"])
        ["s"] = false
    ∧ isRelativeTo (["tmp"] ++ [fileName ["s", "v.txt"] ++ "-" ++ "u" ++ ".bak"])
        ["o"] = false :=
  (delete_restore_tempdir_safety ["s"] ["o"] ["tmp"] ["s", "v.txt"] .SYMLINK
    "u").2 (by decide) (by decide) (by decide) (by decide)

/-- C10: `create_delete_kept_build_file` raises `RuntimeError` exactly
when the build file's final name is neither `BUILD` nor `BUILD.bazel`;
with name `BUILD.bazel` its create step verifies the `NOT_UNDER_SYMLINK`
relationship (sequenced with the merged-file content check) and with
name `BUILD` it verifies `SYMLINK`; the delete step always verifies
`OMISSION`. -/
theorem create_delete_kept_build_file_name_rule (ex : PathC → Bool)
    (wsc : PathC → PathC) (build_file : PathC) (u : String) :
    ((fileName build_file ≠ "BUILD" ∧ fileName build_file ≠ "BUILD.bazel") ↔
        isErr (create_delete_kept_build_file ex wsc build_file u) = true)
    ∧ (fileName build_file = "BUILD.bazel" →
        (create_delete_kept_build_file ex wsc build_file u).map
            (fun g => g.steps.map CujStep.verify)
          = .ok [ .andThen (.inWs .NOT_UNDER_SYMLINK build_file)
                    (.skipFor .SOONG_ONLY (.containsLine
                      (withName (wsc build_file) "BUILD.bazel") (bogusMarker u)))
                , .andThen (.inWs .OMISSION build_file)
                    (.skipFor .SOONG_ONLY (.notContainsLine
                      (withName (wsc build_file) "BUILD.bazel") (bogusMarker u))) ])
    ∧ (fileName build_file = "BUILD" →
        (create_delete_kept_build_file ex wsc build_file u).map
            (fun g => g.steps.map CujStep.verify)
          = .ok [ .andThen (.inWs .SYMLINK build_file)
                    (.skipFor .SOONG_ONLY (.containsLine
                      (withName (wsc build_file) "BUILD.bazel") (bogusMarker u)))
                , .andThen (.inWs .OMISSION build_file)
                    (.skipFor .SOONG_ONLY (.notContainsLine
                      (withName (wsc build_file) "BUILD.bazel") (bogusMarker u))) ]) := by
  by_cases h1 : fileName build_file = "BUILD.bazel"
  · refine ⟨⟨fun hc => absurd h1 hc.2, fun herr => ?_⟩, fun _ => ?_, fun h2 => ?_⟩
    · simp [create_delete_kept_build_file, h1, create_delete, content_verfiers,
        pure, Except.pure, Bind.bind, Except.bind, isErr] at herr
    · simp [create_delete_kept_build_file, h1, create_delete, content_verfiers,
        pure, Except.pure, Bind.bind, Except.bind, Except.map]
    · rw [h1] at h2
      exact absurd h2 (by decide)
  · by_cases h2 : fileName build_file = "BUILD"
    · refine ⟨⟨fun hc => absurd h2 hc.1, fun herr => ?_⟩, fun hc => absurd hc h1,
        fun _ => ?_⟩
      · simp [create_delete_kept_build_file, h1, h2, create_delete,
          content_verfiers, pure, Except.pure, Bind.bind, Except.bind, isErr] at herr
      · simp [create_delete_kept_build_file, h1, h2, create_delete,
          content_verfiers, pure, Except.pure, Bind.bind, Except.bind, Except.map]
    · refine ⟨⟨fun _ => ?_, fun _ => ⟨h2, h1⟩⟩, fun hc => absurd hc h1,
        fun hc => absurd hc h2⟩
      simp [create_delete_kept_build_file, h1, h2, Bind.bind, Except.bind, isErr]

theorem create_delete_kept_build_file_name_rule_witness :
    (create_delete_kept_build_file (fun _ => true) id ["a", "BUILD"] "u").map
        (fun g => g.steps.map CujStep.verify)
      = .ok [ .andThen (.inWs .SYMLINK ["a", "BUILD"])
                (.skipFor .SOONG_ONLY (.containsLine
                  (withName (id ["a", "BUILD"]) "BUILD.bazel") (bogusMarker "u")))
            , .andThen (.inWs .OMISSION ["a", "BUILD"])
                (.skipFor .SOONG_ONLY (.notContainsLine
                  (withName (id ["a", "BUILD"]) "BUILD.bazel") (bogusMarker "u"))) ] :=
  (create_delete_kept_build_file_name_rule (fun _ => true) id ["a", "BUILD"]
    "u").2.2 (by decide)

/-- C5 counterexample: the source defines five canned
`regex_modify_revert` wrappers (`modify_private_method`,
`add_private_field`, `add_public_api`, `modify_resource`,
`add_resource`), not four. -/
theorem canned_variants_not_four : ¬ ((cannedVariants 0).length = 4) := by
  decide

/-- C5 (amended): `regex_modify_revert` has exactly five canned variants,
each calling `regex_modify_revert` with its own substitution pattern,
replacement and `modify_type` label: modifying a private method body,
adding a private field, adding a public field, editing a structured-data
resource entry, and adding a structured-data resource entry. -/
theorem canned_variants_catalog :
    (∀ n : Nat, (cannedVariants n).length = 5)
    ∧ (cannedVariants 0).map (fun v => v.2.2)
        = [ "modify_private_method", "add_private_field", "add_public_api"
          , "modify_resource", "add_resource" ]
    ∧ ((cannedVariants 0).map (fun v => v.1)).Nodup
    ∧ (∀ (ex : PathC → Bool) (file : PathC) (n : Nat),
        modify_private_method ex file n
            = regex_modify_revert ex file pmPattern (pmReplacement n)
                "modify_private_method"
        ∧ add_private_field ex file n
            = regex_modify_revert ex file pfPattern (pfReplacement n)
                "add_private_field"
        ∧ add_public_api ex file n
            = regex_modify_revert ex file paPattern (paReplacement n)
                "add_public_api"
        ∧ modify_resource ex file n
            = regex_modify_revert ex file mrPattern (mrReplacement n)
                "modify_resource"
        ∧ add_resource ex file n
            = regex_modify_revert ex file arPattern (arReplacement n)
                "add_resource") :=
  ⟨fun _ => rfl, rfl, by decide, fun _ _ _ => ⟨rfl, rfl, rfl, rfl, rfl⟩⟩

theorem isErr_bind {α β : Type} (e : Except String α) (f : α → Except String β)
    (h : ∀ x, isErr (f x) = true) : isErr (e >>= f) = true := by
  cases e with
  | error s => rfl
  | ok x => exact h x

theorem isErr_bind_left {α β : Type} {e : Except String α}
    (h : isErr e = true) (f : α → Except String β) : isErr (e >>= f) = true := by
  cases e with
  | error s => rfl
  | ok x => simp [isErr] at h

theorem isErr_confirm {verdict : PathC → List String → Bool} {root : PathC}
    {pats : List String} (h : verdict root pats = false) :
    isErr (confirm verdict root pats) = true := by
  simp [confirm, h, isErr]

theorem isErr_unkept_cujs (env : CatalogEnv)
    (h : env.verdict (srcOf env.top "bionic/libm") unkeptPatterns = false) :
    isErr (_unkept_build_cujs env) = true := by
  unfold _unkept_build_cujs
  exact isErr_bind_left (isErr_confirm h) _

theorem isErr_kept_cujs (env : CatalogEnv)
    (h : env.verdict (srcOf env.top "build/bazel") keptPatterns = false) :
    isErr (_kept_build_cujs env) = true := by
  unfold _kept_build_cujs
  exact isErr_bind_left (isErr_confirm h) _

/-- C8: if any structural `finder.confirm` precondition fails —
whether one of the four confirmations at the head of `get_cujgroups` or
the per-section confirmation inside `_unkept_build_cujs` or
`_kept_build_cujs`, each of which runs before the groups of its section
are constructed — `get_cujgroups` propagates the fatal error and returns
no list of groups at all. -/
theorem get_cujgroups_confirm_fatal (env : CatalogEnv)
    (h : env.verdict (srcOf env.top "art") pkgPatterns = false
       ∨ env.verdict (srcOf env.top "bionic/docs") pkgFreePatterns = false
       ∨ env.verdict (srcOf env.top "bionic") ancestorPatterns = false
       ∨ env.verdict (srcOf env.top "bionic/build") leafPkgFreePatterns = false
       ∨ env.verdict (srcOf env.top "bionic/libm") unkeptPatterns = false
       ∨ env.verdict (srcOf env.top "build/bazel") keptPatterns = false) :
    isErr (get_cujgroups env) = true := by
  unfold get_cujgroups
  dsimp only
  rcases h with h | h | h | h | h | h
  · exact isErr_bind_left (isErr_confirm h) _
  · apply isErr_bind
    intro x
    exact isErr_bind_left (isErr_confirm h) _
  · iterate 2 (apply isErr_bind; intro x)
    exact isErr_bind_left (isErr_confirm h) _
  · iterate 3 (apply isErr_bind; intro x)
    exact isErr_bind_left (isErr_confirm h) _
  · iterate 20 (apply isErr_bind; intro x)
    exact isErr_bind_left (isErr_unkept_cujs env h) _
  · iterate 21 (apply isErr_bind; intro x)
    exact isErr_bind_left (isErr_kept_cujs env h) _

theorem get_cujgroups_confirm_fatal_witness :
    isErr (get_cujgroups
      { top := ["top"], outDir := ["out"], tempdir := ["tmp"]
        existsF := fun _ => true, verdict := fun _ _ => false
        wsc := id, u := "u", rnd := 0 }) = true :=
  get_cujgroups_confirm_fatal
    { top := ["top"], outDir := ["out"], tempdir := ["tmp"]
      existsF := fun _ => true, verdict := fun _ _ => false
      wsc := id, u := "u", rnd := 0 } (Or.inl rfl)
